import Mathlib

/-!
Verification of the movie query/filter/sort/pagination pipeline of the
Movie_Management repository: the React client's derived-view computation
(MovieList component) and the Express backend's query building, pagination,
aggregation and mutation handlers (movieController.js).

The JavaScript source is shallowly embedded: JS numbers appearing in the
pipeline (years, ratings, durations) are modelled as integers -- every claim
only involves integral values, and comparison and subtraction of such JS
numbers agree with integer semantics -- except where a division occurs
(average ratings), which is modelled in the rationals.  JS strings are Lean
strings, missing object fields are `Option`, and the defensive array-shape
checks of the client are a sum type `MoviesState`.
-/

namespace MovieMgmt

/-! ## Client-side data model (frontend MovieList component) -/

/-- One movie record as held by the React client.  Every field the component
reads defensively (for example `movie.name || ''`) is optional, so that a
record with a missing `name`, `description`, `genre`, `releaseYear` or
`rating` field can be represented. -/
structure ClientMovie where
  _id : String
  name : Option String
  description : Option String
  genre : Option String
  releaseYear : Option ℤ
  rating : Option ℤ
deriving DecidableEq

/-- The client's in-memory collection state: either an array of movie records
or an unexpected non-array value (abstracted by a tag), as distinguished by
the component's `Array.isArray(prev)` checks. -/
inductive MoviesState where
  | arr (movies : List ClientMovie)
  | nonArray (v : String)
deriving DecidableEq

/-! ## JS string containment (String.prototype.includes) -/

/-- Containment of `needle` as a contiguous run inside `hay`, embedding
`hay.includes(needle)` on JS strings (over the character lists). -/
def containsSub (needle : List Char) : List Char → Bool
  | [] => needle.isEmpty
  | c :: rest => needle.isPrefixOf (c :: rest) || containsSub needle rest

/-- Embeds `hay.includes(needle)` on JS strings. -/
def jsIncludes (hay needle : String) : Bool :=
  containsSub needle.toList hay.toList

/-- The spec-side reading of "s is a case-insensitive substring of t". -/
def CIsub (needle hay : String) : Prop :=
  needle.toLower.toList <:+: hay.toLower.toList

theorem containsSub_iff (needle hay : List Char) :
    containsSub needle hay = true ↔ needle <:+: hay := by
  induction hay with
  | nil =>
    simp [containsSub, List.isEmpty_iff]
  | cons c rest ih =>
    simp only [containsSub, Bool.or_eq_true, ih, List.infix_cons_iff,
      List.isPrefixOf_iff_prefix]

theorem jsIncludes_iff (hay needle : String) :
    jsIncludes hay.toLower needle.toLower = true ↔ CIsub needle hay := by
  simp [jsIncludes, CIsub, containsSub_iff]

/-! ## Client derived view: filtering (filteredAndSortedMovies, filter stage) -/

/-- The filter predicate inside `filteredAndSortedMovies` (MovieList
component): missing `name`/`description`/`genre` default to the empty string,
the search term matches case-insensitively against name or description, and
the genre filter matches exactly unless it is the sentinel "all".  The
source's guard for non-object array entries is vacuous here because every
entry of the embedded collection is a record. -/
def movieMatches (searchTerm filterGenre : String) (movie : ClientMovie) : Bool :=
  let movieName := movie.name.getD ("")
  let movieDescription := movie.description.getD ("")
  let movieGenre := movie.genre.getD ("")
  let matchesSearch := searchTerm == "" ||
    jsIncludes movieName.toLower searchTerm.toLower ||
    jsIncludes movieDescription.toLower searchTerm.toLower
  let matchesGenre := filterGenre == "all" || movieGenre == filterGenre
  matchesSearch && matchesGenre

/-! ## Client derived view: sorting (filteredAndSortedMovies, sort stage) -/

/-- Lexicographic string comparison standing in for `localeCompare`: the
locale collation is some total order on strings, and which total order it is
does not matter to any claim, so the lexicographic one is used. -/
def localeCompare (a b : String) : ℤ :=
  if a < b then -1 else if b < a then 1 else 0

/-- The `switch (sortBy)` comparison of `filteredAndSortedMovies`: name via
`localeCompare`, year and rating numerically, with missing values read as 0
(`a.releaseYear || 0`), and 0 for an unknown sort key (the default case). -/
def sortComparison (sortBy : String) (a b : ClientMovie) : ℤ :=
  if sortBy == "name" then localeCompare (a.name.getD ("")) (b.name.getD (""))
  else if sortBy == "year" then (a.releaseYear.getD 0) - (b.releaseYear.getD 0)
  else if sortBy == "rating" then (a.rating.getD 0) - (b.rating.getD 0)
  else 0

/-- The comparator actually handed to `.sort(...)`: the comparison, negated
when the current direction is not ascending. -/
def sortComparator (sortBy sortOrder : String) (a b : ClientMovie) : ℤ :=
  if sortOrder == "asc" then sortComparison sortBy a b
  else -(sortComparison sortBy a b)

/-- Stable insertion of one element: the new element goes in front of the
first element it compares less-or-equal to. -/
def jsInsert (le : α → α → Bool) (a : α) : List α → List α
  | [] => [a]
  | b :: l => if le a b then a :: b :: l else b :: jsInsert le a l

/-- Stable sort parameterised by a boolean less-or-equal test, embedding
`Array.prototype.sort` (which ECMAScript requires to be stable) for a
consistent comparator `cmp` via `le a b = (cmp a b ≤ 0)`. -/
def jsSortWith (le : α → α → Bool) : List α → List α
  | [] => []
  | a :: l => jsInsert le a (jsSortWith le l)

/-- The sort stage of `filteredAndSortedMovies`. -/
def sortMovies (sortBy sortOrder : String) (l : List ClientMovie) : List ClientMovie :=
  jsSortWith (fun a b => decide (sortComparator sortBy sortOrder a b ≤ 0)) l

/-- Embeds `filteredAndSortedMovies`: empty (or non-array) collections give
the empty view, otherwise the collection is filtered and then sorted. -/
def filteredAndSortedMovies (searchTerm filterGenre sortBy sortOrder : String) :
    MoviesState → List ClientMovie
  | .nonArray _ => []
  | .arr movies =>
    if movies.isEmpty then []
    else sortMovies sortBy sortOrder (movies.filter (movieMatches searchTerm filterGenre))

/-- Embeds `handleSort`: clicking the active key toggles the direction,
clicking a new key selects it with ascending direction.  Arguments: the
clicked field, then the current `(sortBy, sortOrder)` state. -/
def handleSort (field sortBy sortOrder : String) : String × String :=
  if sortBy == field then
    (sortBy, if sortOrder == "asc" then ("desc") else ("asc"))
  else (field, "asc")

/-! ## Generic facts about the stable sort -/

theorem jsInsert_perm (le : α → α → Bool) (a : α) (l : List α) :
    (jsInsert le a l).Perm (a :: l) := by
  induction l with
  | nil => simp [jsInsert]
  | cons b t ih =>
    by_cases h : le a b = true
    · simp [jsInsert, h]
    · simp only [jsInsert, h, if_neg, Bool.not_eq_true] at *
      exact (ih.cons b).trans (List.Perm.swap a b t)

theorem jsSortWith_perm (le : α → α → Bool) (l : List α) :
    (jsSortWith le l).Perm l := by
  induction l with
  | nil => exact List.Perm.refl _
  | cons a t ih =>
    exact ((jsInsert_perm le a (jsSortWith le t)).trans (ih.cons a))

theorem jsInsert_append (le : α → α → Bool) (a : α) (l : List α)
    (h : ∀ b ∈ l, le a b = false) :
    jsInsert le a l = l ++ [a] := by
  induction l with
  | nil => rfl
  | cons b t ih =>
    have hb : le a b = false := h b (by simp)
    simp only [jsInsert, hb, Bool.false_eq_true, if_false, List.cons_append,
      List.cons.injEq, true_and]
    exact ih fun x hx => h x (by simp [hx])

/-- Sorting a list that is already strictly descending for `le` (every
earlier element compares strictly after every later one) reverses it. -/
theorem jsSortWith_eq_reverse (le : α → α → Bool) (l : List α)
    (h : l.Pairwise (fun a b => le a b = false)) :
    jsSortWith le l = l.reverse := by
  induction l with
  | nil => rfl
  | cons a t ih =>
    rcases List.pairwise_cons.mp h with ⟨ha, ht⟩
    have : jsSortWith le (a :: t) = jsInsert le a (jsSortWith le t) := rfl
    rw [this, ih ht, jsInsert_append le a t.reverse
      (fun b hb => ha b (List.mem_reverse.mp hb))]
    simp

theorem jsInsert_pairwise (le : α → α → Bool)
    (htot : ∀ a b, le a b = true ∨ le b a = true)
    (htr : ∀ a b c, le a b = true → le b c = true → le a c = true)
    (a : α) (l : List α) (h : l.Pairwise (fun x y => le x y = true)) :
    (jsInsert le a l).Pairwise (fun x y => le x y = true) := by
  induction l with
  | nil => simp [jsInsert]
  | cons b t ih =>
    rcases List.pairwise_cons.mp h with ⟨hb, ht⟩
    by_cases hab : le a b = true
    · simp only [jsInsert, hab, if_true]
      refine List.pairwise_cons.mpr ⟨?_, h⟩
      intro x hx
      rcases List.mem_cons.mp hx with hx | hx
      · exact hx ▸ hab
      · exact htr a b x hab (hb x hx)
    · have hba : le b a = true := (htot a b).resolve_left hab
      simp only [jsInsert, hab, if_false]
      refine List.pairwise_cons.mpr ⟨?_, ih ht⟩
      intro x hx
      have hx' := (jsInsert_perm le a t).mem_iff.mp hx
      rcases List.mem_cons.mp hx' with hx2 | hx2
      · rw [hx2]; exact hba
      · exact hb x hx2

theorem jsSortWith_pairwise (le : α → α → Bool)
    (htot : ∀ a b, le a b = true ∨ le b a = true)
    (htr : ∀ a b c, le a b = true → le b c = true → le a c = true)
    (l : List α) :
    (jsSortWith le l).Pairwise (fun x y => le x y = true) := by
  induction l with
  | nil => simp [jsSortWith]
  | cons a t ih => exact jsInsert_pairwise le htot htr a _ ih


/-! ## Comparator algebra -/

theorem localeCompare_swap (a b : String) :
    localeCompare b a = -(localeCompare a b) := by
  unfold localeCompare
  rcases lt_trichotomy a b with h | h | h
  · rw [if_neg (asymm h), if_pos h, if_pos h]; norm_num
  · subst h; simp
  · rw [if_pos h, if_neg (asymm h), if_pos h]

theorem localeCompare_le_zero (a b : String) :
    localeCompare a b ≤ 0 ↔ a ≤ b := by
  unfold localeCompare
  rcases lt_trichotomy a b with h | h | h
  · simp [h, le_of_lt h]
  · subst h; simp
  · rw [if_neg (asymm h), if_pos h]
    simp [not_le.mpr h]

theorem localeCompare_eq_zero (a b : String) :
    localeCompare a b = 0 ↔ a = b := by
  unfold localeCompare
  rcases lt_trichotomy a b with h | h | h
  · simp [h, ne_of_lt h]
  · subst h; simp
  · rw [if_neg (asymm h), if_pos h]
    simp [ne_of_gt h]

theorem sortComparison_swap (k : String) (a b : ClientMovie) :
    sortComparison k b a = -(sortComparison k a b) := by
  unfold sortComparison
  by_cases h1 : (k == "name") = true
  · simp only [h1, if_true]; exact localeCompare_swap _ _
  · simp only [h1, Bool.false_eq_true, if_false]
    by_cases h2 : (k == "year") = true
    · simp only [h2, if_true]; ring
    · simp only [h2, Bool.false_eq_true, if_false]
      by_cases h3 : (k == "rating") = true
      · simp only [h3, if_true]; ring
      · simp only [h3, Bool.false_eq_true, if_false]; ring

theorem sortComparison_trans (k : String) (a b c : ClientMovie)
    (hab : sortComparison k a b ≤ 0) (hbc : sortComparison k b c ≤ 0) :
    sortComparison k a c ≤ 0 := by
  unfold sortComparison at *
  by_cases h1 : (k == "name") = true
  · simp only [h1, if_true] at *
    rw [localeCompare_le_zero] at *
    exact le_trans hab hbc
  · simp only [h1, Bool.false_eq_true, if_false] at *
    by_cases h2 : (k == "year") = true
    · simp only [h2, if_true] at *; linarith
    · simp only [h2, Bool.false_eq_true, if_false] at *
      by_cases h3 : (k == "rating") = true
      · simp only [h3, if_true] at *; linarith
      · simp only [h3, Bool.false_eq_true, if_false] at *; linarith

/-! ## Claim C1: the derived-view filter -/

/-- C1: for every collection, search term and genre filter, the derived view
contains a movie exactly when (the search term is empty, or is a
case-insensitive substring of the movie name or description) and (the genre
filter is "all", or equals the movie genre exactly); missing name,
description and genre fields are read as the empty string, and the
computation is total (it is a Lean function), so it never throws. -/
theorem view_membership_iff (movies : List ClientMovie) (s g k ord : String)
    (m : ClientMovie) :
    m ∈ filteredAndSortedMovies s g k ord (.arr movies) ↔
      m ∈ movies ∧
        ((s = "" ∨ CIsub s (m.name.getD ("")) ∨ CIsub s (m.description.getD ("")))
          ∧ (g = "all" ∨ m.genre.getD ("") = g)) := by
  unfold filteredAndSortedMovies
  by_cases hemp : movies.isEmpty
  · rw [List.isEmpty_iff] at hemp
    subst hemp
    simp
  · simp only [hemp, Bool.false_eq_true, if_false, sortMovies]
    rw [(jsSortWith_perm _ _).mem_iff, List.mem_filter]
    unfold movieMatches
    simp only [Bool.and_eq_true, Bool.or_eq_true, beq_iff_eq, jsIncludes_iff]
    tauto

/-! ## Claim C2: sort-direction toggling -/

theorem sortComparator_asc (k : String) (a b : ClientMovie) :
    sortComparator k ("asc") a b = sortComparison k a b := by
  simp [sortComparator]

theorem sortComparator_desc (k : String) (a b : ClientMovie) :
    sortComparator k ("desc") a b = -(sortComparison k a b) := by
  simp [sortComparator]

/-- A first movie with rating 5: it ties with `cexB` under the rating key. -/
def cexA : ClientMovie :=
  { _id := "a1", name := some ("Alpha"), description := none, genre := none,
    releaseYear := none, rating := some 5 }

/-- A second movie with rating 5: it ties with `cexA` under the rating key. -/
def cexB : ClientMovie :=
  { _id := "b1", name := some ("Beta"), description := none, genre := none,
    releaseYear := none, rating := some 5 }

/-- C2, refuted as stated: a stable sort keeps tied elements in their
original relative order in both directions, so on a collection with two
movies of equal rating, re-sorting the ascending result with the toggled
direction does not reverse it. -/
theorem sort_toggle_counterexample :
    ¬ (∀ (C : List ClientMovie) (k : String),
        (k = "name" ∨ k = "year" ∨ k = "rating") →
        sortMovies k ("desc") (sortMovies k ("asc") C) =
          (sortMovies k ("asc") C).reverse) := by
  intro h
  have h2 := h [cexA, cexB] "rating" (Or.inr (Or.inr rfl))
  revert h2
  decide

/-- C2, amended: when no two movies of the collection compare equal under
the chosen key, sorting ascending and then applying the toggled (descending)
sort yields exactly the reverse of the ascending result; and selecting a key
different from the active one resets the direction to ascending. -/
theorem sort_toggle_amended (C : List ClientMovie) (k : String)
    (_hk : k = "name" ∨ k = "year" ∨ k = "rating")
    (hdist : C.Pairwise (fun a b => sortComparison k a b ≠ 0)) :
    sortMovies k ("desc") (sortMovies k ("asc") C) = (sortMovies k ("asc") C).reverse ∧
      (∀ f o, f ≠ k → handleSort f k o = (f, "asc")) := by
  constructor
  · have hswap := sortComparison_swap k
    have leA : ClientMovie → ClientMovie → Bool :=
      fun a b => decide (sortComparator k ("asc") a b ≤ 0)
    have htot : ∀ a b : ClientMovie,
        (decide (sortComparator k ("asc") a b ≤ 0)) = true ∨
        (decide (sortComparator k ("asc") b a ≤ 0)) = true := by
      intro a b
      simp only [sortComparator_asc, decide_eq_true_eq]
      rcases le_total (sortComparison k a b) 0 with h | h
      · exact Or.inl h
      · right; rw [hswap a b]; exact neg_nonpos.mpr h
    have htr : ∀ a b c : ClientMovie,
        (decide (sortComparator k ("asc") a b ≤ 0)) = true →
        (decide (sortComparator k ("asc") b c ≤ 0)) = true →
        (decide (sortComparator k ("asc") a c ≤ 0)) = true := by
      intro a b c hab hbc
      simp only [sortComparator_asc, decide_eq_true_eq] at *
      exact sortComparison_trans k a b c hab hbc
    have PA := jsSortWith_pairwise
      (fun a b => decide (sortComparator k ("asc") a b ≤ 0)) htot htr C
    have hsymm : ∀ {x y : ClientMovie},
        sortComparison k x y ≠ 0 → sortComparison k y x ≠ 0 := by
      intro x y h
      rw [hswap x y]
      simpa using h
    have Pne : (jsSortWith
        (fun a b => decide (sortComparator k ("asc") a b ≤ 0)) C).Pairwise
        (fun a b => sortComparison k a b ≠ 0) :=
      ((jsSortWith_perm _ C).pairwise_iff hsymm).mpr hdist
    have hstrict : (jsSortWith
        (fun a b => decide (sortComparator k ("asc") a b ≤ 0)) C).Pairwise
        (fun a b => (decide (sortComparator k ("desc") a b ≤ 0)) = false) := by
      refine (PA.and Pne).imp ?_
      intro a b hab
      rcases hab with ⟨h1, h2⟩
      simp only [decide_eq_true_eq] at h1
      have hlt : sortComparison k a b < 0 := lt_of_le_of_ne h1 h2
      rw [sortComparator_desc]
      simp only [decide_eq_false_iff_not, not_le]
      linarith
    exact jsSortWith_eq_reverse _ _ hstrict
  · intro f o hne
    have : (k == f) = false := beq_eq_false_iff_ne.mpr fun h => hne h.symm
    simp [handleSort, this]

/-- A movie with rating 3, distinct from the rating of `cw2`. -/
def cw1 : ClientMovie :=
  { _id := "w1", name := some ("A"), description := none, genre := none,
    releaseYear := none, rating := some 3 }

/-- A movie with rating 7, distinct from the rating of `cw1`. -/
def cw2 : ClientMovie :=
  { _id := "w2", name := some ("B"), description := none, genre := none,
    releaseYear := none, rating := some 7 }

theorem sort_toggle_amended_witness :
    sortMovies ("rating") ("desc") (sortMovies ("rating") ("asc") [cw1, cw2]) =
      (sortMovies ("rating") ("asc") [cw1, cw2]).reverse ∧
    (∀ f o, f ≠ "rating" → handleSort f ("rating") o = (f, "asc")) :=
  sort_toggle_amended [cw1, cw2] "rating" (Or.inr (Or.inr rfl)) (by decide)

/-! ## Genre set (uniqueGenres) and mutation folding (handleDelete / handleUpdate) -/

/-- First-occurrence deduplication with an accumulator of already-seen
elements: the insertion-order semantics of a JS `Set` (and of Mongo
`$addToSet` up to its unspecified order). -/
def addToSetDedup [DecidableEq α] (seen : List α) : List α → List α
  | [] => []
  | a :: rest =>
    if a ∈ seen then addToSetDedup seen rest
    else a :: addToSetDedup (a :: seen) rest

/-- The genre values collected by `uniqueGenres`: the `genre` field of each
movie, keeping only present, truthy (non-empty) string values, embedding
`.map(movie => movie?.genre).filter(genre => genre && typeof genre === 'string')`. -/
def genreValues (movies : List ClientMovie) : List String :=
  ((movies.map (fun m => m.genre)).filterMap id).filter (fun g => g != "")

/-- Embeds `uniqueGenres`: the sentinel "all" alone for a non-array or empty
collection, otherwise "all" prefixed to the deduplicated genre values
(`['all', ...new Set(genres)]`). -/
def uniqueGenres : MoviesState → List String
  | .nonArray _ => ["all"]
  | .arr movies =>
    if movies.isEmpty then ["all"]
    else ("all") :: addToSetDedup [] (genreValues movies)

/-- Embeds the state update of `handleDelete` (run after a successful server
delete): on an array, keep the movies whose identifier differs from the
deleted one; on a non-array value, reset to the empty array. -/
def handleDeleteFold (prev : MoviesState) (id : String) : MoviesState :=
  match prev with
  | .arr movies => .arr (movies.filter (fun movie => movie._id != id))
  | .nonArray _ => .arr []

/-- Embeds the state update of `handleUpdate` (run after a successful server
update): on an array, replace each movie whose identifier matches by the
server-returned record; on a non-array value, reset to the empty array. -/
def handleUpdateFold (prev : MoviesState) (id : String)
    (updatedMovie : ClientMovie) : MoviesState :=
  match prev with
  | .arr movies =>
    .arr (movies.map (fun movie => if movie._id == id then updatedMovie else movie))
  | .nonArray _ => .arr []

/-! ## Claim C6: the computed genre set -/

/-- C6: the genre set is the deduplicated list of the (present, non-empty)
genre fields prefixed with the sentinel "all"; it always contains "all",
whatever the collection state, and for the empty collection it is exactly
`["all"]`. -/
theorem unique_genres_correct :
    (∀ st : MoviesState, "all" ∈ uniqueGenres st) ∧
    (∀ movies : List ClientMovie,
      uniqueGenres (.arr movies) = "all" :: addToSetDedup [] (genreValues movies)) ∧
    uniqueGenres (.arr []) = ["all"] := by
  refine ⟨?_, ?_, rfl⟩
  · intro st
    cases st with
    | nonArray v => simp [uniqueGenres]
    | arr movies =>
      by_cases h : movies.isEmpty <;> simp [uniqueGenres, h]
  · intro movies
    by_cases h : movies.isEmpty
    · rw [List.isEmpty_iff] at h
      subst h
      rfl
    · simp [uniqueGenres, h]

/-! ## Claim C4: delete folding -/

/-- A first movie whose identifier "dup" collides with `dupB`. -/
def dupA : ClientMovie :=
  { _id := "dup", name := some ("First"), description := none, genre := none,
    releaseYear := none, rating := none }

/-- A second movie whose identifier "dup" collides with `dupA`. -/
def dupB : ClientMovie :=
  { _id := "dup", name := some ("Second"), description := none, genre := none,
    releaseYear := none, rating := none }

/-- C4, refuted as stated: the fold is a filter, so on a collection holding
two entries with the deleted identifier it removes both, not exactly one --
there is no decomposition witnessing a single removed entry. -/
theorem delete_fold_counterexample :
    ¬ (∃ l1 mdel l2, ([dupA, dupB] : List ClientMovie) = l1 ++ mdel :: l2 ∧
        mdel._id = "dup" ∧
        handleDeleteFold (.arr [dupA, dupB]) "dup" = .arr (l1 ++ l2)) := by
  rintro ⟨l1, mdel, l2, hC, hid, hres⟩
  have hcomp : handleDeleteFold (.arr [dupA, dupB]) "dup" = .arr [] := by decide
  rw [hcomp] at hres
  have hnil : ([] : List ClientMovie) = l1 ++ l2 := by
    injection hres
  rcases List.append_eq_nil.mp hnil.symm with ⟨h1, h2⟩
  subst h1
  subst h2
  simp at hC

/-- C4, amended: when the collection holds exactly one entry carrying the
deleted identifier, the fold removes exactly that entry and leaves the
relative order of all remaining entries unchanged. -/
theorem delete_fold_amended (l1 l2 : List ClientMovie) (mdel : ClientMovie)
    (id : String) (hid : mdel._id = id)
    (h1 : ∀ x ∈ l1, x._id ≠ id) (h2 : ∀ x ∈ l2, x._id ≠ id) :
    handleDeleteFold (.arr (l1 ++ mdel :: l2)) id = .arr (l1 ++ l2) := by
  show MoviesState.arr ((l1 ++ mdel :: l2).filter (fun movie => movie._id != id)) =
    .arr (l1 ++ l2)
  congr 1
  rw [List.filter_append]
  rw [List.filter_eq_self.mpr (by intro a ha; simpa using h1 a ha)]
  rw [List.filter_cons_of_neg (by simp [hid])]
  rw [List.filter_eq_self.mpr (by intro a ha; simpa using h2 a ha)]

/-- A movie with the identifier "keep", not deleted in the C4 witness. -/
def keepW : ClientMovie :=
  { _id := "keep", name := none, description := none, genre := none,
    releaseYear := none, rating := none }

/-- A movie with the identifier "gone", deleted in the C4 witness. -/
def goneW : ClientMovie :=
  { _id := "gone", name := none, description := none, genre := none,
    releaseYear := none, rating := none }

theorem delete_fold_amended_witness :
    handleDeleteFold (.arr ([keepW] ++ goneW :: [keepW])) "gone" =
      .arr ([keepW] ++ [keepW]) :=
  delete_fold_amended [keepW] [keepW] goneW ("gone") (by decide)
    (by decide) (by decide)

/-! ## Claim C5: mutation folds on a non-array collection -/

/-- An arbitrary update record used by the C5 counterexample. -/
def updW : ClientMovie :=
  { _id := "u", name := none, description := none, genre := none,
    releaseYear := none, rating := none }

/-- C5, refuted as stated: on a non-array value the folds are not no-ops --
they replace the value by the empty array. -/
theorem nonarray_fold_counterexample :
    handleDeleteFold (.nonArray ("oops")) "x" ≠ .nonArray ("oops") ∧
    handleUpdateFold (.nonArray ("oops")) "x" updW ≠ .nonArray ("oops") := by
  decide

/-- C5, amended: on a non-array value both folds degrade to the empty array
(in particular they do not crash and do not apply the mutation), rather than
leaving the value unchanged. -/
theorem nonarray_fold_amended (v : String) (id : String) (upd : ClientMovie) :
    handleDeleteFold (.nonArray v) id = .arr [] ∧
    handleUpdateFold (.nonArray v) id upd = .arr [] := by
  exact ⟨rfl, rfl⟩

/-! ## Server-side data model (backend movieController.js) -/

/-- One stored movie document (backend Movie schema), restricted to the
fields the controller reads.  Creation timestamps are modelled as an
abstract counter. -/
structure ServerMovie where
  _id : String
  title : String
  description : String
  director : String
  year : ℤ
  genres : List String
  duration : ℤ
  rating : ℤ
  watched : Bool
  addedBy : Nat
  createdAt : Nat
deriving DecidableEq

/-- The query parameters of `GET /api/movies` after HTTP parsing:
absent parameters are `none`.  Numeric query-string parsing is elided
(`page`, `limit`, `year` arrive already as numbers), `watched` stays the raw
string it is compared against `'true'`. -/
structure ListParams where
  page : Option Nat := none
  limit : Option Nat := none
  sort : Option String := none
  genre : Option String := none
  year : Option ℤ := none
  search : Option String := none
  watched : Option String := none
deriving DecidableEq

/-- The Mongo filter document built by `getMovies`: the mandatory ownership
conjunct plus the optional genre/year/watched/text clauses. -/
structure MovieQuery where
  addedBy : Nat
  genres : Option String
  year : Option ℤ
  watched : Option Bool
  search : Option String
deriving DecidableEq

/-- JS truthiness for an optional string parameter: an absent or empty
string is falsy and adds no clause. -/
def truthyStr : Option String → Option String
  | some s => if s == "" then none else some s
  | none => none

/-- Embeds the query construction of `getMovies` (movieController.js lines
21-41): start from `{ addedBy: req.user.id }` and conjoin each provided
filter; `watched` is present whenever the parameter is not undefined and
compares the raw value with the string 'true'. -/
def buildQuery (userId : Nat) (p : ListParams) : MovieQuery :=
  { addedBy := userId
    genres := truthyStr p.genre
    year := p.year
    watched := p.watched.map (fun w => w == "true")
    search := truthyStr p.search }

/-- Mongo `$text` search against the text index over title, description and
director (Movie schema), modelled as case-insensitive containment in one of
the indexed fields. -/
def textMatches (s : String) (m : ServerMovie) : Bool :=
  jsIncludes m.title.toLower s.toLower ||
  jsIncludes m.description.toLower s.toLower ||
  jsIncludes m.director.toLower s.toLower

/-- Whether a stored movie satisfies the filter document: the conjunction of
the ownership clause and every optional clause present. -/
def queryMatches (q : MovieQuery) (m : ServerMovie) : Bool :=
  m.addedBy == q.addedBy &&
  (match q.genres with | none => true | some g => m.genres.contains g) &&
  (match q.year with | none => true | some y => m.year == y) &&
  (match q.watched with | none => true | some w => m.watched == w) &&
  (match q.search with | none => true | some s => textMatches s m)

/-- The query used by `getMovie`, `updateMovie`, `deleteMovie` and
`toggleWatchStatus`: `{ _id: req.params.id, addedBy: req.user.id }`. -/
def byIdQueryMatches (id : String) (userId : Nat) (m : ServerMovie) : Bool :=
  m._id == id && m.addedBy == userId

/-- The destructuring default `page = 1` of `getMovies`. -/
def defaultedPage (p : ListParams) : Nat := p.page.getD 1

/-- The destructuring default `limit = 10` of `getMovies`. -/
def defaultedLimit (p : ListParams) : Nat := p.limit.getD 10

/-- The destructuring default `sort = '-createdAt'` of `getMovies`. -/
def defaultedSort (p : ListParams) : String := p.sort.getD ("-createdAt")

/-- The Mongoose `.sort(...)` stage, for the sort specifications the
controller can produce by default: creation time descending (newest first,
the default `'-createdAt'`) or ascending; any other specification is left to
Mongo and modelled as the stored order.  A permutation of the matched set in
every case, which is all the claims rely on. -/
def mongoSort (sort : String) (l : List ServerMovie) : List ServerMovie :=
  if sort == "-createdAt" then
    jsSortWith (fun a b => decide (b.createdAt ≤ a.createdAt)) l
  else if sort == "createdAt" then
    jsSortWith (fun a b => decide (a.createdAt ≤ b.createdAt)) l
  else l

/-- Embeds `Math.ceil(total / limit)` on natural counts (exact for a
positive limit, see `jsCeilDiv_eq_ceil`). -/
def jsCeilDiv (total limit : Nat) : Nat := (total + limit - 1) / limit

/-- The pagination envelope of the list response. -/
structure Pagination where
  page : Nat
  limit : Nat
  total : Nat
  pages : Nat
deriving DecidableEq

/-- The list-endpoint stats document produced by the `$group` aggregation:
count, average rating, total runtime and the set of distinct `genres`
arrays (`$addToSet: '$genres'`). -/
structure ListStats where
  totalMovies : Nat
  avgRating : ℚ
  totalRuntime : ℤ
  genres : List (List String)
deriving DecidableEq

/-- The `$group` aggregation of `getMovies`: over an empty match set Mongo
produces no group document (`none`); otherwise the stats document. -/
def aggregateListStats (matched : List ServerMovie) : Option ListStats :=
  if matched.isEmpty then none
  else some
    { totalMovies := matched.length
      avgRating := ((matched.map (fun m => m.rating)).sum : ℚ) / matched.length
      totalRuntime := (matched.map (fun m => m.duration)).sum
      genres := addToSetDedup [] (matched.map (fun m => m.genres)) }

/-- The zero-valued stats fallback of the list endpoint
(`stats[0] || { totalMovies: 0, avgRating: 0, totalRuntime: 0, genres: [] }`). -/
def defaultListStats : ListStats :=
  { totalMovies := 0, avgRating := 0, totalRuntime := 0, genres := [] }

/-- The data payload of the list response. -/
structure ListResponse where
  movies : List ServerMovie
  pagination : Pagination
  stats : ListStats
deriving DecidableEq

/-- Embeds `getMovies` (movieController.js lines 8-94) over a database
modelled as the list of stored movies: build the query, sort the matched
set, skip `(page-1)*limit`, cap to `limit`, and report total, page count and
the aggregation stats (defaulted when no movie matched). -/
def getMovies (userId : Nat) (p : ListParams) (db : List ServerMovie) :
    ListResponse :=
  let page := defaultedPage p
  let limit := defaultedLimit p
  let query := buildQuery userId p
  let matched := db.filter (queryMatches query)
  let skip := (page - 1) * limit
  { movies := ((mongoSort (defaultedSort p) matched).drop skip).take limit
    pagination :=
      { page := page, limit := limit, total := matched.length
        pages := jsCeilDiv matched.length limit }
    stats := (aggregateListStats matched).getD defaultListStats }

/-- Embeds `getMovie`: the first stored movie matching the by-id query, or
`none` (a 404). -/
def getMovie (userId : Nat) (id : String) (db : List ServerMovie) :
    Option ServerMovie :=
  db.find? (byIdQueryMatches id userId)

/-! ## Server mutations and user counters -/

/-- Replacement of the first element satisfying a predicate, the effect of
Mongoose `findOneAndUpdate` on a matching document. -/
def updateFirst (p : α → Bool) (f : α → α) : List α → List α
  | [] => []
  | a :: l => if p a then f a :: l else a :: updateFirst p f l

/-- Removal of the first element satisfying a predicate, the effect of
Mongoose `findOneAndDelete` on a matching document. -/
def eraseFirst (p : α → Bool) : List α → List α
  | [] => []
  | a :: l => if p a then l else a :: eraseFirst p l

/-- One user record (backend User model), restricted to the fields the
movie controller touches: the running counters and the watchlist. -/
structure UserRec where
  id : Nat
  movieCount : ℤ
  totalWatchTime : ℤ
  watchlist : List String
deriving DecidableEq

/-- The whole persistent state the movie controller touches. -/
structure ServerState where
  movies : List ServerMovie
  users : List UserRec
deriving DecidableEq

/-- The `$inc` counter update `User.findByIdAndUpdate(req.user.id, { $inc:
{ movieCount: dc, totalWatchTime: dt } })`. -/
def incCounters (userId : Nat) (dc dt : ℤ) (users : List UserRec) : List UserRec :=
  updateFirst (fun u => u.id == userId)
    (fun u => { u with movieCount := u.movieCount + dc,
                       totalWatchTime := u.totalWatchTime + dt }) users

/-- Embeds `createMovie` (movieController.js lines 130-165): insert the
document with `addedBy` forced to the requesting user, then -- as a second,
untied operation -- increment the owner counters.  `counterUpdateOk = false`
models the second step failing after the first succeeded (the handler then
reports a 500, but the inserted movie remains). -/
def createMovie (userId : Nat) (m : ServerMovie) (counterUpdateOk : Bool)
    (st : ServerState) : ServerState × Nat :=
  let movie := { m with addedBy := userId }
  let st1 := { st with movies := st.movies ++ [movie] }
  if counterUpdateOk then
    ({ st1 with users := incCounters userId 1 movie.duration st1.users }, 201)
  else (st1, 500)

/-- Embeds `deleteMovie` (movieController.js lines 217-248):
`findOneAndDelete` on the by-id query, a 404 when nothing matches, then --
again a second, untied operation -- decrement the owner counters. -/
def deleteMovie (userId : Nat) (id : String) (counterUpdateOk : Bool)
    (st : ServerState) : ServerState × Nat :=
  match st.movies.find? (byIdQueryMatches id userId) with
  | none => (st, 404)
  | some movie =>
    let st1 := { st with movies := eraseFirst (byIdQueryMatches id userId) st.movies }
    if counterUpdateOk then
      ({ st1 with users := incCounters userId (-1) (-movie.duration) st1.users }, 200)
    else (st1, 500)

/-- Embeds `updateMovie` (movieController.js lines 170-212): the request body
is abstracted as a document transformation applied by `findOneAndUpdate` to
the first movie matching the by-id query; returns the updated document, or
`none` (a 404). -/
def updateMovie (userId : Nat) (id : String) (body : ServerMovie → ServerMovie)
    (db : List ServerMovie) : List ServerMovie × Option ServerMovie :=
  match db.find? (byIdQueryMatches id userId) with
  | none => (db, none)
  | some m => (updateFirst (byIdQueryMatches id userId) body db, some (body m))

/-- Embeds `toggleWatchStatus` (movieController.js lines 253-284): find the
owned movie, flip its watched flag and save; the watch date is out of the
modelled fields. -/
def toggleWatchStatus (userId : Nat) (id : String) (db : List ServerMovie) :
    List ServerMovie × Option ServerMovie :=
  match db.find? (byIdQueryMatches id userId) with
  | none => (db, none)
  | some movie =>
    let movie2 := { movie with watched := !movie.watched }
    (updateFirst (byIdQueryMatches id userId) (fun _ => movie2) db, some movie2)

/-- Embeds `addToWatchlist` (movieController.js lines 289-315) on the
caller's watchlist: a 400 leaving the list unchanged when the identifier is
already present, otherwise an append at the end. -/
def addToWatchlist (watchlist : List String) (id : String) :
    List String × Nat :=
  if watchlist.contains id then (watchlist, 400)
  else (watchlist ++ [id], 200)

/-- The movies owned by a user in a state. -/
def ownedMovies (userId : Nat) (st : ServerState) : List ServerMovie :=
  st.movies.filter (fun m => m.addedBy == userId)

/-- The counters stored on a user record, when the user exists. -/
def userCounters (userId : Nat) (st : ServerState) : Option (ℤ × ℤ) :=
  (st.users.find? (fun u => u.id == userId)).map
    (fun u => (u.movieCount, u.totalWatchTime))

/-! ## Overview stats (getOverviewStats) -/

/-- The overview stats document produced by the first `$group` aggregation
of `getOverviewStats`. -/
structure OverviewStats where
  totalMovies : Nat
  avgRating : ℚ
  totalRuntime : ℤ
  watchedCount : Nat
deriving DecidableEq

/-- The first aggregation of `getOverviewStats`: `none` over an empty match
set, otherwise count, average rating, total runtime and watched count. -/
def aggregateOverview (matched : List ServerMovie) : Option OverviewStats :=
  if matched.isEmpty then none
  else some
    { totalMovies := matched.length
      avgRating := ((matched.map (fun m => m.rating)).sum : ℚ) / matched.length
      totalRuntime := (matched.map (fun m => m.duration)).sum
      watchedCount := (matched.filter (fun m => m.watched)).length }

/-- The zero-valued overview fallback (`stats[0] || { totalMovies: 0,
avgRating: 0, totalRuntime: 0, watchedCount: 0 }`). -/
def defaultOverviewStats : OverviewStats :=
  { totalMovies := 0, avgRating := 0, totalRuntime := 0, watchedCount := 0 }

/-- The genre-distribution aggregation of `getOverviewStats`: `$unwind` the
genre arrays, count per genre, order by descending count, keep the top 5. -/
def genreDistribution (matched : List ServerMovie) : List (String × Nat) :=
  let unwound := (matched.map (fun m => m.genres)).flatten
  let keys := addToSetDedup [] unwound
  let counts := keys.map (fun g => (g, (unwound.filter (fun x => x == g)).length))
  (jsSortWith (fun a b => decide (b.2 ≤ a.2)) counts).take 5

/-- The year-distribution aggregation of `getOverviewStats`: count per
release year, order by descending year, keep the 5 most recent. -/
def yearDistribution (matched : List ServerMovie) : List (ℤ × Nat) :=
  let keys := addToSetDedup [] (matched.map (fun m => m.year))
  let counts := keys.map (fun y => (y, (matched.filter (fun m => m.year == y)).length))
  (jsSortWith (fun a b => decide (b.1 ≤ a.1)) counts).take 5

/-- The data payload of the overview response. -/
structure OverviewResponse where
  overview : OverviewStats
  topGenres : List (String × Nat)
  recentYears : List (ℤ × Nat)
deriving DecidableEq

/-- Embeds `getOverviewStats` (movieController.js lines 320-388): all three
aggregations match on ownership only. -/
def getOverviewStats (userId : Nat) (db : List ServerMovie) : OverviewResponse :=
  let matched := db.filter (fun m => m.addedBy == userId)
  { overview := (aggregateOverview matched).getD defaultOverviewStats
    topGenres := genreDistribution matched
    recentYears := yearDistribution matched }

/-! ## Claim C3: server pagination -/

theorem mongoSort_perm (sort : String) (l : List ServerMovie) :
    (mongoSort sort l).Perm l := by
  unfold mongoSort
  by_cases h1 : (sort == "-createdAt") = true
  · simp only [h1, if_true]
    exact jsSortWith_perm _ l
  · simp only [h1, Bool.false_eq_true, if_false]
    by_cases h2 : (sort == "createdAt") = true
    · simp only [h2, if_true]
      exact jsSortWith_perm _ l
    · simp only [h2, Bool.false_eq_true, if_false]
      exact List.Perm.refl l

/-- The natural-number rendering of `Math.ceil(total / limit)` used by the
embedding agrees with the exact rational ceiling whenever the limit is
positive. -/
theorem jsCeilDiv_eq_ceil (total limit : Nat) (h : 0 < limit) :
    (jsCeilDiv total limit : ℤ) = ⌈(total : ℚ) / (limit : ℚ)⌉ := by
  have hl : (0 : ℚ) < (limit : ℚ) := by exact_mod_cast h
  rcases Nat.eq_zero_or_pos total with ht | ht
  · subst ht
    have hz : jsCeilDiv 0 limit = 0 := by
      unfold jsCeilDiv
      exact Nat.div_eq_of_lt (by omega)
    rw [hz]
    simp
  · have hq : jsCeilDiv total limit = (total - 1) / limit + 1 := by
      unfold jsCeilDiv
      have he : total + limit - 1 = (total - 1) + limit := by omega
      rw [he, Nat.add_div_right _ h]
    rw [hq]
    set d : ℕ := (total - 1) / limit with hd
    have e : limit * d + (total - 1) % limit = total - 1 :=
      Nat.div_add_mod (total - 1) limit
    have hr : (total - 1) % limit < limit := Nat.mod_lt _ h
    have hlow : limit * d < total := by omega
    have hup : total ≤ limit * d + limit := by omega
    symm
    rw [Int.ceil_eq_iff]
    constructor
    · push_cast
      rw [show ((d : ℚ) + 1) - 1 = (d : ℚ) by ring]
      rw [lt_div_iff₀ hl]
      calc (d : ℚ) * (limit : ℚ) = ((limit * d : ℕ) : ℚ) := by push_cast; ring
        _ < total := by exact_mod_cast hlow
    · rw [div_le_iff₀ hl]
      push_cast
      calc (total : ℚ) ≤ ((limit * d + limit : ℕ) : ℚ) := by exact_mod_cast hup
        _ = ((d : ℚ) + 1) * (limit : ℚ) := by push_cast; ring

/-- C3: the list endpoint skips `(page-1)*limit` records of the sorted match
set and returns at most `limit` of them; absent parameters default to page
1, limit 10 and sort '-createdAt'; and the reported page count is the exact
ceiling of total over limit whenever the limit is positive.  (The witness
instantiates the 15-record, page-2, limit-10 example.) -/
theorem pagination_correct (userId : Nat) (p : ListParams)
    (db : List ServerMovie) (hlim : 0 < defaultedLimit p) :
    (getMovies userId p db).movies =
      ((mongoSort (defaultedSort p)
          (db.filter (queryMatches (buildQuery userId p)))).drop
        ((defaultedPage p - 1) * defaultedLimit p)).take (defaultedLimit p) ∧
    (getMovies userId p db).movies.length ≤ defaultedLimit p ∧
    (p.page = none → (getMovies userId p db).pagination.page = 1) ∧
    (p.limit = none → (getMovies userId p db).pagination.limit = 10) ∧
    (p.sort = none → defaultedSort p = "-createdAt") ∧
    ((getMovies userId p db).pagination.pages : ℤ) =
      ⌈((getMovies userId p db).pagination.total : ℚ) / (defaultedLimit p : ℚ)⌉ := by
  refine ⟨rfl, ?_, ?_, ?_, ?_, ?_⟩
  · show (((mongoSort (defaultedSort p) _).drop _).take (defaultedLimit p)).length ≤ _
    rw [List.length_take]
    exact min_le_left _ _
  · intro h
    simp [getMovies, defaultedPage, h]
  · intro h
    simp [getMovies, defaultedLimit, h]
  · intro h
    simp [defaultedSort, h]
  · exact jsCeilDiv_eq_ceil _ _ hlim

/-- The 15-record database of the C3 witness: all owned by user 1, equal
creation times (so the default newest-first sort keeps the stored order). -/
def dbC3 : List ServerMovie :=
  (List.range 15).map (fun i =>
    { _id := toString i, title := "T", description := "D", director := "X",
      year := 2000, genres := ["Drama"], duration := 100, rating := 5,
      watched := false, addedBy := 1, createdAt := 0 })

/-- The page-2, limit-10 request of the C3 witness. -/
def pC3 : ListParams := { page := some 2, limit := some 10 }

theorem pagination_correct_witness :
    (0 < defaultedLimit pC3) ∧
    ((getMovies 1 pC3 dbC3).pagination.pages : ℤ) =
      ⌈((getMovies 1 pC3 dbC3).pagination.total : ℚ) / (defaultedLimit pC3 : ℚ)⌉ ∧
    (getMovies 1 pC3 dbC3).movies = dbC3.drop 10 ∧
    (getMovies 1 pC3 dbC3).movies.length = 5 ∧
    (getMovies 1 pC3 dbC3).pagination.pages = 2 :=
  ⟨by decide, (pagination_correct 1 pC3 dbC3 (by decide)).2.2.2.2.2,
    by decide, by decide, by decide⟩

/-! ## Claim C7: zero-match stats defaults -/

/-- C7: when the list query matches no movie and the user owns no movie, the
list-endpoint stats and the overview are the fully populated zero-valued
default structures (count 0, average 0, runtime 0, empty genre data) -- the
fields are present by construction, and no error is produced. -/
theorem empty_stats_default (userId : Nat) (p : ListParams)
    (db : List ServerMovie)
    (hlist : db.filter (queryMatches (buildQuery userId p)) = [])
    (hover : db.filter (fun m => m.addedBy == userId) = []) :
    (getMovies userId p db).stats = defaultListStats ∧
    (getMovies userId p db).stats.genres = [] ∧
    (getOverviewStats userId db).overview = defaultOverviewStats ∧
    (getOverviewStats userId db).topGenres = [] ∧
    (getOverviewStats userId db).recentYears = [] := by
  refine ⟨?_, ?_, ?_, ?_, ?_⟩ <;>
    simp [getMovies, getOverviewStats, hlist, hover, aggregateListStats,
      aggregateOverview, genreDistribution, yearDistribution, defaultListStats,
      addToSetDedup, jsSortWith]

theorem empty_stats_default_witness :
    (getMovies 3 ({} : ListParams) []).stats = defaultListStats ∧
    (getOverviewStats 3 []).overview = defaultOverviewStats :=
  ⟨((empty_stats_default 3 {} [] rfl rfl).1),
   ((empty_stats_default 3 {} [] rfl rfl).2.2.1)⟩

/-! ## Claim C8: mandatory ownership scoping -/

/-- C8: for every combination of request parameters, the list query
predicate and the by-id predicate (shared by get-one, update, delete and
toggle-watch) entail ownership by the requesting user -- no parameter can
remove the conjunct because it is installed unconditionally -- and therefore
every movie returned by the list endpoint, the get-one endpoint or the
toggle endpoint belongs to the requesting user. -/
theorem ownership_scoping (userId : Nat) (p : ListParams) (id : String)
    (db : List ServerMovie) :
    (∀ m : ServerMovie,
      queryMatches (buildQuery userId p) m = true → m.addedBy = userId) ∧
    (∀ m : ServerMovie,
      byIdQueryMatches id userId m = true → m.addedBy = userId) ∧
    (∀ m ∈ (getMovies userId p db).movies, m.addedBy = userId) ∧
    (∀ m : ServerMovie, getMovie userId id db = some m → m.addedBy = userId) ∧
    (∀ (db2 : List ServerMovie) (m : ServerMovie),
      toggleWatchStatus userId id db = (db2, some m) → m.addedBy = userId) := by
  have hq : ∀ m : ServerMovie,
      queryMatches (buildQuery userId p) m = true → m.addedBy = userId := by
    intro m h
    unfold queryMatches at h
    simp only [Bool.and_eq_true, beq_iff_eq] at h
    exact h.1.1.1.1
  have hb : ∀ m : ServerMovie,
      byIdQueryMatches id userId m = true → m.addedBy = userId := by
    intro m h
    unfold byIdQueryMatches at h
    simp only [Bool.and_eq_true, beq_iff_eq] at h
    exact h.2
  refine ⟨hq, hb, ?_, ?_, ?_⟩
  · intro m hm
    have h1 : m ∈ (mongoSort (defaultedSort p)
        (db.filter (queryMatches (buildQuery userId p)))).drop
          ((defaultedPage p - 1) * defaultedLimit p) :=
      List.mem_of_mem_take hm
    have h2 := List.mem_of_mem_drop h1
    have h3 := (mongoSort_perm (defaultedSort p) _).mem_iff.mp h2
    exact hq m (List.mem_filter.mp h3).2
  · intro m h
    exact hb m (List.find?_some h)
  · intro db2 m h
    unfold toggleWatchStatus at h
    cases hfind : db.find? (byIdQueryMatches id userId) with
    | none =>
      rw [hfind] at h
      simp at h
    | some movie =>
      rw [hfind] at h
      have hm : m = { movie with watched := !movie.watched } := by
        have := (Prod.mk.injEq _ _ _ _).mp h
        exact (Option.some.injEq _ _).mp this.2 |>.symm
      have := hb movie (List.find?_some hfind)
      rw [hm]
      exact this

/-- The owned movie of the C8 witness. -/
def ownW : ServerMovie :=
  { _id := "m1", title := "T", description := "D", director := "X",
    year := 2000, genres := ["Drama"], duration := 100, rating := 5,
    watched := false, addedBy := 7, createdAt := 0 }

theorem ownership_scoping_witness : ownW.addedBy = 7 :=
  (ownership_scoping 7 {} ("m1") []).2.1 ownW (by decide)

/-! ## Claim C9: owner counters under create/delete -/

/-- The single user of the C9 evaluation, with counters in sync with an
empty owned set. -/
def userC9 : UserRec := { id := 1, movieCount := 0, totalWatchTime := 0, watchlist := [] }

/-- The initial state of the C9 evaluation. -/
def stC9 : ServerState := { movies := [], users := [userC9] }

/-- The movie created in the C9 evaluation. -/
def movC9 : ServerMovie :=
  { _id := "m9", title := "T", description := "D", director := "X",
    year := 2001, genres := ["Drama"], duration := 120, rating := 6,
    watched := false, addedBy := 1, createdAt := 3 }

/-- C9, evaluated at the failing input: when the movie insert succeeds but
the separate counter update fails (`counterUpdateOk = false`, the handler
answers 500), the owned set has grown to one movie while the owner counters
still read zero -- the counters no longer track the owned-movie set.  When
both steps of both operations succeed, create followed by delete does
restore the exact pre-create state. -/
theorem counter_tracking_divergence :
    ((createMovie 1 movC9 false stC9).2 = 500 ∧
     (ownedMovies 1 (createMovie 1 movC9 false stC9).1).length = 1 ∧
     userCounters 1 (createMovie 1 movC9 false stC9).1 = some (0, 0)) ∧
    (deleteMovie 1 ("m9") true (createMovie 1 movC9 true stC9).1).1 = stC9 := by
  decide

/-! ## Claim C10: watchlist append -/

/-- C10: appending an already-present identifier fails with a 400 and leaves
the watchlist unchanged; appending a new identifier appends exactly it at
the end; and any watchlist built from the empty one solely by this operation
is duplicate-free. -/
theorem watchlist_append_correct (wl : List String) (id : String) :
    (id ∈ wl → addToWatchlist wl id = (wl, 400)) ∧
    (id ∉ wl → addToWatchlist wl id = (wl ++ [id], 200)) ∧
    (∀ ids : List String,
      (ids.foldl (fun acc i => (addToWatchlist acc i).1) []).Nodup) := by
  refine ⟨?_, ?_, ?_⟩
  · intro h
    simp [addToWatchlist, List.elem_iff, h]
  · intro h
    simp [addToWatchlist, List.elem_iff, h]
  · intro ids
    have key : ∀ (l acc : List String), acc.Nodup →
        (l.foldl (fun acc i => (addToWatchlist acc i).1) acc).Nodup := by
      intro l
      induction l with
      | nil => intro acc h; simpa using h
      | cons i t ih =>
        intro acc h
        rw [List.foldl_cons]
        apply ih
        by_cases hmem : i ∈ acc
        · simpa [addToWatchlist, hmem] using h
        · have hgoal : (addToWatchlist acc i).1 = acc ++ [i] := by
            simp [addToWatchlist, hmem]
          rw [hgoal, List.nodup_append]
          refine ⟨h, List.nodup_singleton i, ?_⟩
          intro x hx hx2
          simp only [List.mem_singleton] at hx2
          subst hx2
          exact hmem hx
    exact key ids [] (by simp)

theorem watchlist_append_correct_witness :
    addToWatchlist ["a"] ("a") = (["a"], 400) ∧
    addToWatchlist ["a"] ("b") = (["a", "b"], 200) :=
  ⟨(watchlist_append_correct ["a"] ("a")).1 (by decide),
   (watchlist_append_correct ["a"] ("b")).2.1 (by decide)⟩

end MovieMgmt
